import Mathlib

/-!
Verification of the event-driven backtesting engine exposed through
`src/python_bindings/pybind11_wrapper.cpp`.

The binding file is the only source file of the repository: it declares the
constructor signatures (with their default arguments), the accessor surface of
every event class, the `PyStrategy` trampoline for host-language strategy
subclasses, and the `add_strategy` ownership-transfer lambda.  The bodies of
`Portfolio`, `SMAStrategy` and `BacktestingEngine` are not part of the
repository, so those operations are modelled from the specification (each such
definition carries a doc comment starting `Modelled from the spec:`).

Prices, strengths and monetary amounts are modelled as rationals (the C++ code
uses `double`; the claims under study concern default values, bookkeeping
identities and control flow, none of which depend on floating-point rounding).
Quantities, volumes and timestamps are modelled as integers (`int` / `int64_t`
in the binding).
-/

namespace Backtesting

/-- `EventType` enum bound at lines 57-62 of the wrapper. -/
inductive EventType where
  | MARKET
  | SIGNAL
  | ORDER
  | FILL
deriving DecidableEq, Repr

/-- `OrderType` enum bound at lines 64-68 of the wrapper. -/
inductive OrderType where
  | MARKET
  | LIMIT
  | STOP
deriving DecidableEq, Repr

/-- `OrderDirection` enum bound at lines 70-73 of the wrapper. -/
inductive OrderDirection where
  | BUY
  | SELL
deriving DecidableEq, Repr

/-- `MarketEvent(symbol, price, timestamp, volume)` as exposed at
lines 81-88 of the wrapper: `symbol : string`, `price : double`,
`timestamp : int64_t`, `volume : int`. -/
structure MarketEvent where
  symbol : String
  price : ℚ
  timestamp : Int
  volume : Int
deriving DecidableEq, Repr

/-- The binding declares `py::arg("volume") = 0`: constructing a
`MarketEvent` without supplying `volume` builds it with volume `0`
(wrapper line 83). -/
def MarketEvent.mkDefault (symbol : String) (price : ℚ) (timestamp : Int) :
    MarketEvent :=
  ⟨symbol, price, timestamp, 0⟩

def MarketEvent.get_type (_ : MarketEvent) : EventType := EventType.MARKET
def MarketEvent.get_symbol (e : MarketEvent) : String := e.symbol
def MarketEvent.get_price (e : MarketEvent) : ℚ := e.price
def MarketEvent.get_timestamp (e : MarketEvent) : Int := e.timestamp
def MarketEvent.get_volume (e : MarketEvent) : Int := e.volume

/-- `SignalEvent(symbol, direction, strength, strategy_id)` as exposed at
lines 91-98 of the wrapper. -/
structure SignalEvent where
  symbol : String
  direction : OrderDirection
  strength : ℚ
  strategy_id : String
deriving DecidableEq, Repr

/-- The binding declares `py::arg("strength") = 1.0` and
`py::arg("strategy_id") = ""` (wrapper line 93): constructing a `SignalEvent`
without those arguments uses strength `1` and the empty strategy id. -/
def SignalEvent.mkDefault (symbol : String) (direction : OrderDirection) :
    SignalEvent :=
  ⟨symbol, direction, 1, ""⟩

def SignalEvent.get_type (_ : SignalEvent) : EventType := EventType.SIGNAL
def SignalEvent.get_symbol (e : SignalEvent) : String := e.symbol
def SignalEvent.get_direction (e : SignalEvent) : OrderDirection := e.direction
def SignalEvent.get_strength (e : SignalEvent) : ℚ := e.strength
def SignalEvent.get_strategy_id (e : SignalEvent) : String := e.strategy_id

/-- `OrderEvent(symbol, order_type, quantity, direction, price)` as exposed at
lines 101-110 of the wrapper; `py::arg("price") = 0.0`. -/
structure OrderEvent where
  symbol : String
  order_type : OrderType
  quantity : Int
  direction : OrderDirection
  price : ℚ
deriving DecidableEq, Repr

def OrderEvent.get_type (_ : OrderEvent) : EventType := EventType.ORDER
def OrderEvent.get_symbol (e : OrderEvent) : String := e.symbol
def OrderEvent.get_order_type (e : OrderEvent) : OrderType := e.order_type
def OrderEvent.get_quantity (e : OrderEvent) : Int := e.quantity
def OrderEvent.get_direction (e : OrderEvent) : OrderDirection := e.direction
def OrderEvent.get_price (e : OrderEvent) : ℚ := e.price

/-- `FillEvent(symbol, quantity, direction, fill_price, commission, timestamp)`
as exposed at lines 113-123 of the wrapper; `py::arg("commission") = 0.0`,
`py::arg("timestamp") = 0`. -/
structure FillEvent where
  symbol : String
  quantity : Int
  direction : OrderDirection
  fill_price : ℚ
  commission : ℚ
  timestamp : Int
deriving DecidableEq, Repr

/-- Constructing a `FillEvent` without supplying `commission` or `timestamp`
uses the binding defaults `0.0` and `0` (wrapper line 116). -/
def FillEvent.mkDefault (symbol : String) (quantity : Int)
    (direction : OrderDirection) (fill_price : ℚ) : FillEvent :=
  ⟨symbol, quantity, direction, fill_price, 0, 0⟩

def FillEvent.get_type (_ : FillEvent) : EventType := EventType.FILL
def FillEvent.get_symbol (e : FillEvent) : String := e.symbol
def FillEvent.get_quantity (e : FillEvent) : Int := e.quantity
def FillEvent.get_direction (e : FillEvent) : OrderDirection := e.direction
def FillEvent.get_fill_price (e : FillEvent) : ℚ := e.fill_price
def FillEvent.get_commission (e : FillEvent) : ℚ := e.commission
def FillEvent.get_timestamp (e : FillEvent) : Int := e.timestamp

/-- Module-level factory `create_market_event` (wrapper lines 175-180): the
lambda body is `std::make_shared<MarketEvent>(symbol, price, timestamp,
volume)`, i.e. it forwards all four arguments to the `MarketEvent`
constructor (with the same default `volume = 0`). -/
def create_market_event (symbol : String) (price : ℚ) (timestamp : Int)
    (volume : Int) : MarketEvent :=
  ⟨symbol, price, timestamp, volume⟩

/-- Module-level factory `create_signal_event` (wrapper lines 182-187): the
lambda body is `std::make_shared<SignalEvent>(symbol, direction, strength,
strategy_id)` with the same defaults as the constructor. -/
def create_signal_event (symbol : String) (direction : OrderDirection)
    (strength : ℚ) (strategy_id : String) : SignalEvent :=
  ⟨symbol, direction, strength, strategy_id⟩

/-! ## The `PyStrategy` trampoline (wrapper lines 31-51)

`Strategy` declares `calculateSignals` and `getName` as pure-virtual methods;
`PyStrategy` overrides each with `PYBIND11_OVERRIDE_PURE(...)`: the call looks
up the host-language override of the method on the concrete instance and
dispatches to it, and because the macro is the PURE variant there is no base
implementation to fall back on - if no override exists the call fails instead
of running base code.  We model a user-supplied instance as the pair of its
(optional) overrides, and virtual dispatch through the interface as the lookup
the macro performs. -/

/-- Error raised by `PYBIND11_OVERRIDE_PURE` when the concrete instance
supplies no override for a pure-virtual method. -/
inductive DispatchError where
  | pureVirtualCall (method : String)
deriving DecidableEq, Repr

/-- A host-language subclass instance as seen by the trampoline: each
pure-virtual method either has a user-supplied override or not.
`calculateSignals` consumes a `MarketEvent` and emits zero or more signals
(its C++ return type is `void`; the emitted signals are its observable side
effect on the engine queue); `getName` returns a string. -/
structure PyStrategyInstance where
  override_calculateSignals : Option (MarketEvent → List SignalEvent)
  override_getName : Option (Unit → String)

/-- `PyStrategy::calculateSignals` (wrapper lines 35-42): dispatch to the
instance override; pure-virtual error when absent. -/
def PyStrategy.calculateSignals (inst : PyStrategyInstance)
    (e : MarketEvent) : Except DispatchError (List SignalEvent) :=
  match inst.override_calculateSignals with
  | some f => Except.ok (f e)
  | none => Except.error (DispatchError.pureVirtualCall "calculateSignals")

/-- `PyStrategy::getName` (wrapper lines 44-50): dispatch to the instance
override; pure-virtual error when absent. -/
def PyStrategy.getName (inst : PyStrategyInstance) :
    Except DispatchError String :=
  match inst.override_getName with
  | some f => Except.ok (f ())
  | none => Except.error (DispatchError.pureVirtualCall "getName")

/-! ## The `add_strategy` ownership dance (wrapper lines 164-169)

```cpp
.def("add_strategy", [](BacktestingEngine& self, std::shared_ptr<Strategy> strategy) {
    // Convert shared_ptr to unique_ptr for the C++ interface
    std::unique_ptr<Strategy> unique_strategy(strategy.get());
    strategy.reset(); // Release from shared_ptr to avoid double deletion
    self.addStrategy(std::move(unique_strategy));
})
```

We model the lifetime of one strategy object.  A `shared_ptr` group holds a
reference count; releasing the last shared reference runs `delete` once.  A
`unique_ptr` runs `delete` when it is destroyed.  The lambda receives the
`shared_ptr` argument *by value*, so at entry the count is
`externalRefs + 1`, where `externalRefs` counts the other live shared
references (the pybind11 class holder for the Python-side object is such a
reference, so in practice `externalRefs ≥ 1`).  `strategy.get()` hands the raw
pointer to a fresh `unique_ptr` without touching the count; `strategy.reset()`
decrements the count by one and deletes the object if the count reaches zero.
We count the `delete` calls the object receives over the whole program:
one from the shared group when its count reaches zero, and one from the
engine-owned `unique_ptr` at engine teardown. -/

/-- The control block of the `shared_ptr` group owning the strategy object:
the current reference count and the number of `delete` calls the group has
issued on the object so far. -/
structure SharedGroup where
  count : Nat
  deletes : Nat
deriving DecidableEq, Repr

/-- Destroying or resetting one `shared_ptr` of the group: the count drops by
one, and when the last reference goes away the group deletes the object. -/
def SharedGroup.release (g : SharedGroup) : SharedGroup :=
  if g.count = 1 then ⟨0, g.deletes + 1⟩ else ⟨g.count - 1, g.deletes⟩

/-- Total `delete` calls the strategy object receives over the program when
`add_strategy` is called while `externalRefs` other shared references to it
exist (the pybind11 holder of the Python-side object is one such reference).
The lambda's by-value argument makes the count `externalRefs + 1` at entry;
`strategy.get()` seeds the engine's `unique_ptr` with the raw pointer without
detaching it from the group; `strategy.reset()` releases the lambda's
reference; afterwards each remaining external reference is released when its
owner dies; finally the engine-owned `unique_ptr` deletes the object at
engine teardown. -/
def strategyDeleteCalls (externalRefs : Nat) : Nat :=
  let atEntry : SharedGroup := ⟨externalRefs + 1, 0⟩
  let afterReset := atEntry.release
  let afterExternal := SharedGroup.release^[externalRefs] afterReset
  afterExternal.deletes + 1

/-! ## Association-list helpers

Symbol-indexed maps (`symbol → Position`, `symbol → latest price`) are
modelled as association lists with string keys. -/

/-- Look up the value stored for key `s`. -/
def alookup {β : Type} : List (String × β) → String → Option β
  | [], _ => none
  | (k, v) :: rest, s => if k = s then some v else alookup rest s

/-- Insert-or-replace the value for key `s`. -/
def aupsert {β : Type} : List (String × β) → String → β → List (String × β)
  | [], s, v => [(s, v)]
  | (k, w) :: rest, s, v =>
      if k = s then (k, v) :: rest else (k, w) :: aupsert rest s v

theorem alookup_aupsert_self {β : Type} (l : List (String × β)) (s : String)
    (v : β) : alookup (aupsert l s v) s = some v := by
  induction l with
  | nil => simp [aupsert, alookup]
  | cons kw rest ih =>
      obtain ⟨k, w⟩ := kw
      by_cases hk : k = s
      · simp [aupsert, hk, alookup]
      · simp [aupsert, hk, alookup, ih]

theorem alookup_aupsert_ne {β : Type} (l : List (String × β)) (s t : String)
    (v : β) (hts : t ≠ s) : alookup (aupsert l s v) t = alookup l t := by
  induction l with
  | nil => simp [aupsert, alookup, Ne.symm hts]
  | cons kw rest ih =>
      obtain ⟨k, w⟩ := kw
      by_cases hk : k = s
      · subst hk
        simp [aupsert, alookup, Ne.symm hts]
      · simp [aupsert, hk, alookup, ih]

/-! ## Portfolio

The `Portfolio` class is bound at wrapper lines 147-153
(`update_signal`, `update_fill`, `get_current_price`, `update_price`,
`get_total_value`, constructor default `initial_capital = 100000.0`) but its
body is not part of the repository; the operations below are modelled from
the spec (sections 3, 4.3 and 8). -/

/-- `Position` (spec section 3): per-symbol holding record - `symbol`,
signed `quantity`, volume-weighted `avg_price`, and `market_value` =
quantity x latest known price. -/
structure Position where
  symbol : String
  quantity : Int
  avg_price : ℚ
  market_value : ℚ
deriving DecidableEq, Repr

def Position.get_symbol (p : Position) : String := p.symbol
def Position.get_quantity (p : Position) : Int := p.quantity
def Position.get_avg_price (p : Position) : ℚ := p.avg_price
def Position.get_market_value (p : Position) : ℚ := p.market_value

/-- `Portfolio` state (spec section 3): `cash`, mapping symbol → `Position`,
mapping symbol → latest known price. -/
structure Portfolio where
  cash : ℚ
  positions : List (String × Position)
  prices : List (String × ℚ)
deriving DecidableEq, Repr

/-- Modelled from the spec: `Portfolio(initial_capital)` starts with
`cash = initial_capital`, no positions and no known prices (spec section 3:
"`cash` (real, starts at `initial_capital`)"; binding default
`initial_capital = 100000.0`). -/
def Portfolio.init (initial_capital : ℚ) : Portfolio :=
  ⟨initial_capital, [], []⟩

/-- Modelled from the spec: `get_current_price(symbol)` is a read-only
accessor for the latest known price of a symbol (spec section 6); `0` when no
tick for the symbol has been seen. -/
def Portfolio.get_current_price (pf : Portfolio) (s : String) : ℚ :=
  (alookup pf.prices s).getD 0

/-- Modelled from the spec: `update_price(symbol, price)` "updates latest
price and recomputes affected Position's market value and Portfolio
`total_value`" (spec section 4.3). -/
def Portfolio.update_price (pf : Portfolio) (s : String) (price : ℚ) :
    Portfolio :=
  { pf with
    prices := aupsert pf.prices s price
    positions := pf.positions.map fun kp =>
      if kp.1 = s then
        (kp.1, { kp.2 with market_value := (kp.2.quantity : ℚ) * price })
      else kp }

/-- Modelled from the spec: the signed quantity of a fill
(positive for BUY, negative for SELL). -/
def FillEvent.signedQuantity (f : FillEvent) : Int :=
  match f.direction with
  | OrderDirection.BUY => f.quantity
  | OrderDirection.SELL => -f.quantity

/-- Modelled from the spec: `update_fill(fillEvent)` "updates
`cash -= signed(quantity * fill_price) ± commission` (subtracting for BUY,
adding for SELL, commission always subtracted) and updates the Position's
quantity and volume-weighted `avg_price`" (spec section 4.3); the affected
position's `market_value` is recomputed as quantity x latest known price
(spec section 3: market value is never incrementally drifted). -/
def Portfolio.update_fill (pf : Portfolio) (f : FillEvent) : Portfolio :=
  let cash' := pf.cash - (f.signedQuantity : ℚ) * f.fill_price - f.commission
  let px := pf.get_current_price f.symbol
  let positions' :=
    match alookup pf.positions f.symbol with
    | some pos =>
        let q' := pos.quantity + f.signedQuantity
        let avg' :=
          if 0 < f.signedQuantity ∧ q' ≠ 0 then
            ((pos.quantity : ℚ) * pos.avg_price
              + (f.quantity : ℚ) * f.fill_price) / (q' : ℚ)
          else pos.avg_price
        aupsert pf.positions f.symbol
          ⟨f.symbol, q', avg', (q' : ℚ) * px⟩
    | none =>
        aupsert pf.positions f.symbol
          ⟨f.symbol, f.signedQuantity, f.fill_price,
            (f.signedQuantity : ℚ) * px⟩
  { pf with cash := cash', positions := positions' }

/-- Modelled from the spec: `get_total_value()` is a pure read of the equity:
cash plus the sum of the positions' market values (spec sections 3 and 4.3).
It takes the portfolio by value and only folds over stored fields, so it
cannot change the portfolio state. -/
def Portfolio.get_total_value (pf : Portfolio) : ℚ :=
  pf.cash + (pf.positions.map fun kp => kp.2.market_value).sum

/-- The mark-to-market sum the equity invariant (spec section 8) compares
against: the sum over held symbols of quantity x latest known price. -/
def Portfolio.markToMarketSum (pf : Portfolio) : ℚ :=
  (pf.positions.map fun kp =>
    (kp.2.quantity : ℚ) * pf.get_current_price kp.1).sum

/-- The cached-field consistency invariant: every stored position's
`market_value` equals its quantity times the latest known price of its
symbol, and each position is stored under its own symbol. -/
def Portfolio.Consistent (pf : Portfolio) : Prop :=
  ∀ kp ∈ pf.positions,
    kp.2.symbol = kp.1 ∧
    kp.2.market_value = (kp.2.quantity : ℚ) * pf.get_current_price kp.1

/-- Portfolio states reachable through the bound mutators: the initial state
and anything obtained by `update_price` or `update_fill` calls. -/
inductive Portfolio.Reachable : Portfolio → Prop where
  | init (initial_capital : ℚ) : Portfolio.Reachable (Portfolio.init initial_capital)
  | price {pf : Portfolio} (s : String) (price : ℚ) :
      Portfolio.Reachable pf → Portfolio.Reachable (pf.update_price s price)
  | fill {pf : Portfolio} (f : FillEvent) :
      Portfolio.Reachable pf → Portfolio.Reachable (pf.update_fill f)

/-! ### Preservation of the cached-field consistency invariant -/

theorem aupsert_mem {β : Type} {l : List (String × β)} {s : String} {v : β}
    {kp : String × β} (h : kp ∈ aupsert l s v) : kp = (s, v) ∨ kp ∈ l := by
  induction l with
  | nil =>
      simp [aupsert] at h
      exact Or.inl h
  | cons kw rest ih =>
      obtain ⟨k, w⟩ := kw
      by_cases hk : k = s
      · subst hk
        simp [aupsert] at h
        rcases h with h | h
        · exact Or.inl (by simp [h])
        · exact Or.inr (List.mem_cons_of_mem _ h)
      · simp [aupsert, hk] at h
        rcases h with h | h
        · exact Or.inr (by simp [h])
        · rcases ih h with h' | h'
          · exact Or.inl h'
          · exact Or.inr (List.mem_cons_of_mem _ h')

theorem consistent_init (c : ℚ) : (Portfolio.init c).Consistent := by
  intro kp hkp
  simp [Portfolio.init] at hkp

theorem consistent_update_price {pf : Portfolio} (h : pf.Consistent)
    (s : String) (price : ℚ) : (pf.update_price s price).Consistent := by
  intro kp hkp
  simp only [Portfolio.update_price, List.mem_map] at hkp
  obtain ⟨⟨k, q⟩, hkq, hmap⟩ := hkp
  obtain ⟨hsym, hval⟩ := h ⟨k, q⟩ hkq
  by_cases hks : k = s
  · rw [if_pos hks] at hmap
    subst hmap
    subst hks
    refine ⟨hsym, ?_⟩
    show (q.quantity : ℚ) * price
        = (q.quantity : ℚ) * (pf.update_price k price).get_current_price k
    simp [Portfolio.get_current_price, Portfolio.update_price,
      alookup_aupsert_self]
  · rw [if_neg hks] at hmap
    subst hmap
    refine ⟨hsym, ?_⟩
    show q.market_value
        = (q.quantity : ℚ) * (pf.update_price s price).get_current_price k
    have hp : (pf.update_price s price).get_current_price k
        = pf.get_current_price k := by
      simp [Portfolio.get_current_price, Portfolio.update_price,
        alookup_aupsert_ne _ _ _ _ hks]
    rw [hp]
    exact hval

theorem get_current_price_update_fill (pf : Portfolio) (f : FillEvent)
    (s : String) :
    (pf.update_fill f).get_current_price s = pf.get_current_price s := rfl

theorem consistent_update_fill {pf : Portfolio} (h : pf.Consistent)
    (f : FillEvent) : (pf.update_fill f).Consistent := by
  intro kp hkp
  have hprices : ∀ t, (pf.update_fill f).get_current_price t
      = pf.get_current_price t := fun t => rfl
  simp only [Portfolio.update_fill] at hkp
  rcases hlk : alookup pf.positions f.symbol with _ | pos
  · rw [hlk] at hkp
    simp only at hkp
    rcases aupsert_mem hkp with hnew | hold
    · subst hnew
      refine ⟨rfl, ?_⟩
      simp [hprices]
    · obtain ⟨hsym, hval⟩ := h kp hold
      exact ⟨hsym, by rw [hprices]; exact hval⟩
  · rw [hlk] at hkp
    simp only at hkp
    rcases aupsert_mem hkp with hnew | hold
    · subst hnew
      refine ⟨rfl, ?_⟩
      simp [hprices]
    · obtain ⟨hsym, hval⟩ := h kp hold
      exact ⟨hsym, by rw [hprices]; exact hval⟩

theorem consistent_of_reachable {pf : Portfolio} (h : pf.Reachable) :
    pf.Consistent := by
  induction h with
  | init c => exact consistent_init c
  | price s price _ ih => exact consistent_update_price ih s price
  | fill f _ ih => exact consistent_update_fill ih f

theorem total_value_eq_mark_to_market {pf : Portfolio} (h : pf.Consistent) :
    pf.get_total_value = pf.cash + pf.markToMarketSum := by
  unfold Portfolio.get_total_value Portfolio.markToMarketSum
  congr 1
  apply congrArg List.sum
  apply List.map_congr_left
  intro kp hkp
  exact (h kp hkp).2

/-! ## Errors surfaced by configuration and ingestion

The error taxonomy is spec section 7; none of the corresponding engine code is
part of the repository, so the checks below are modelled from the spec. -/

/-- ConfigurationError (spec section 7): "no strategy registered, invalid
initial capital, invalid window size ≤ 0". -/
inductive ConfigError where
  | noStrategyRegistered
  | invalidInitialCapital
  | invalidWindowSize
deriving DecidableEq, Repr

/-- DataError (spec section 7): "non-monotonic timestamps for a symbol,
negative price/volume/quantity". -/
inductive DataError where
  | negativePrice
  | negativeVolume
  | nonMonotonicTimestamp
deriving DecidableEq, Repr

/-! ## SMAStrategy

`SMAStrategy` is bound at wrapper lines 141-144 (constructor taking
`window_size` with binding default `20`); its body is modelled from spec
sections 3, 4.2 and 7. -/

/-- State of the moving-average strategy: the configured `window_size` and,
per symbol, the rolling history of the most recent prices (newest first,
bounded by the window). -/
structure SMAStrategy where
  window_size : Int
  histories : List (String × List ℚ)
deriving DecidableEq, Repr

/-- Modelled from the spec: constructing an `SMAStrategy` with
`window_size ≤ 0` is a ConfigurationError (spec section 7: "invalid window
size ≤ 0" is fatal); otherwise the strategy starts with empty histories. -/
def SMAStrategy.make (window_size : Int) : Except ConfigError SMAStrategy :=
  if window_size ≤ 0 then Except.error ConfigError.invalidWindowSize
  else Except.ok ⟨window_size, []⟩

/-- The binding default `py::arg("window_size") = 20` (wrapper line 142). -/
def SMAStrategy.makeDefault : Except ConfigError SMAStrategy :=
  SMAStrategy.make 20

/-- `getName` of the built-in strategy. -/
def SMAStrategy.get_name (_ : SMAStrategy) : String := "SMAStrategy"

/-- Modelled from the spec: `calculateSignals` of the moving-average strategy
(spec section 4.2) - push the tick's price into the symbol's bounded history;
once the history holds `window_size` prices, compare the current price with
the rolling mean and emit BUY (price above mean) or SELL (price below mean);
"must not emit before the window is filled". -/
def SMAStrategy.calculateSignals (st : SMAStrategy) (e : MarketEvent) :
    SMAStrategy × Option SignalEvent :=
  let h := (alookup st.histories e.symbol).getD []
  let h' := (e.price :: h).take st.window_size.toNat
  let st' : SMAStrategy :=
    ⟨st.window_size, aupsert st.histories e.symbol h'⟩
  let sig : Option SignalEvent :=
    if h'.length = st.window_size.toNat then
      let mean := h'.sum / (st.window_size : ℚ)
      if mean < e.price then
        some ⟨e.symbol, OrderDirection.BUY, 1, st.get_name⟩
      else if e.price < mean then
        some ⟨e.symbol, OrderDirection.SELL, 1, st.get_name⟩
      else none
    else none
  (st', sig)

/-- Feeding a whole sequence of market events to the strategy, collecting the
emitted signals in order. -/
def SMAStrategy.runFeed : SMAStrategy → List MarketEvent →
    SMAStrategy × List SignalEvent
  | st, [] => (st, [])
  | st, e :: rest =>
      let step := st.calculateSignals e
      let tail := SMAStrategy.runFeed step.1 rest
      (tail.1, step.2.toList ++ tail.2)

/-! ## Feed ingestion (`add_market_data`, wrapper lines 170-171)

The binding forwards `add_market_data(symbol, price, timestamp, volume=0)`
to `BacktestingEngine::addMarketData`, whose body is not part of the
repository; the validation below is modelled from the spec. -/

/-- Modelled from the spec: validated `MarketEvent` construction (spec
section 7: a negative price or volume is a DataError "rejected at ingestion
time (`addMarketData`/event construction), never silently clamped"; spec
section 3: `price` positive real, `volume` non-negative integer).  The
timestamp monotonicity constraint is a property of the feed, so it is
checked against the previously added events by `addMarketData`; a lone
event construction validates the sign constraints. -/
def MarketEvent.construct (symbol : String) (price : ℚ) (timestamp : Int)
    (volume : Int) : Except DataError MarketEvent :=
  if price < 0 then Except.error DataError.negativePrice
  else if volume < 0 then Except.error DataError.negativeVolume
  else Except.ok ⟨symbol, price, timestamp, volume⟩

/-- Modelled from the spec: `addMarketData` validation (spec sections 3, 4.1
and 7) - the tick goes through validated event construction (rejecting a
negative price or volume), and a timestamp smaller than that of a previously
added event for the same symbol is a DataError as well; only a valid tick is
appended to the pending feed. -/
def addMarketData (feed : List MarketEvent) (symbol : String) (price : ℚ)
    (timestamp : Int) (volume : Int) : Except DataError (List MarketEvent) :=
  match MarketEvent.construct symbol price timestamp volume with
  | Except.error err => Except.error err
  | Except.ok ev =>
      if feed.any fun e =>
          e.symbol == symbol && decide (timestamp < e.timestamp) then
        Except.error DataError.nonMonotonicTimestamp
      else Except.ok (feed ++ [ev])

/-! ## ExecutionHandler (wrapper lines 156-159; body modelled from spec 4.4) -/

/-- The simulated venue's view of the latest tradable price per symbol. -/
structure ExecutionHandler where
  prices : List (String × ℚ)
deriving DecidableEq, Repr

/-- Modelled from the spec: `ExecutionHandler.update_price` keeps the
handler's view of the latest tradable price current (spec section 4.4). -/
def ExecutionHandler.update_price (h : ExecutionHandler) (s : String)
    (price : ℚ) : ExecutionHandler :=
  ⟨aupsert h.prices s price⟩

/-- Modelled from the spec: `execute_order` (spec section 4.4) - MARKET
orders always fill immediately at the latest known price for the full
requested quantity (flat zero-commission model); LIMIT/STOP orders fill only
if the latest known price has crossed the order's threshold in the
favorable/triggering direction, otherwise no fill is produced. -/
def ExecutionHandler.execute_order (h : ExecutionHandler) (o : OrderEvent) :
    Option FillEvent :=
  let px := (alookup h.prices o.symbol).getD 0
  let fill : FillEvent := ⟨o.symbol, o.quantity, o.direction, px, 0, 0⟩
  match o.order_type with
  | OrderType.MARKET => some fill
  | OrderType.LIMIT =>
      match o.direction with
      | OrderDirection.BUY => if px ≤ o.price then some fill else none
      | OrderDirection.SELL => if o.price ≤ px then some fill else none
  | OrderType.STOP =>
      match o.direction with
      | OrderDirection.BUY => if o.price ≤ px then some fill else none
      | OrderDirection.SELL => if px ≤ o.price then some fill else none

/-- Modelled from the spec: `Portfolio.update_signal` (spec section 4.3) -
convert a signal into a sized MARKET order; fixed base quantity, clamped for
BUY to what current cash can afford and for SELL to the currently held
quantity (no-short, no-negative-cash policy, spec scenario B); a clamp to a
non-positive quantity places no order. -/
def Portfolio.update_signal (pf : Portfolio) (sig : SignalEvent) :
    Option OrderEvent :=
  let base : Int := 100
  match sig.direction with
  | OrderDirection.BUY =>
      let px := pf.get_current_price sig.symbol
      if px ≤ 0 then none
      else
        let q := min base (Int.floor (pf.cash / px))
        if 0 < q then
          some ⟨sig.symbol, OrderType.MARKET, q, OrderDirection.BUY, 0⟩
        else none
  | OrderDirection.SELL =>
      let held := ((alookup pf.positions sig.symbol).map
        Position.get_quantity).getD 0
      let q := min base held
      if 0 < q then
        some ⟨sig.symbol, OrderType.MARKET, q, OrderDirection.SELL, 0⟩
      else none

/-! ## BacktestingEngine (wrapper lines 162-172; run loop modelled from
spec 4.1) -/

/-- The tagged event union flowing through the queue (spec section 3). -/
inductive Event where
  | market (e : MarketEvent)
  | signal (e : SignalEvent)
  | order (e : OrderEvent)
  | fill (e : FillEvent)
deriving DecidableEq, Repr

/-- A registered strategy: its current state together with its
`calculateSignals` step (state, market event ↦ new state, emitted signals).
The state type `σ` is arbitrary, so any deterministic strategy
implementation can be registered. -/
def RegisteredStrategy (σ : Type) : Type :=
  σ × (σ → MarketEvent → σ × List SignalEvent)

/-- The engine: registered strategies, the pending external feed, the
portfolio and the execution handler. -/
structure BacktestingEngine (σ : Type) where
  strategies : List (RegisteredStrategy σ)
  feed : List MarketEvent
  portfolio : Portfolio
  handler : ExecutionHandler

/-- A fresh engine with no strategies, an empty feed and the default
initial capital of the `Portfolio` binding (wrapper line 148). -/
def BacktestingEngine.make (σ : Type) : BacktestingEngine σ :=
  ⟨[], [], Portfolio.init 100000, ⟨[]⟩⟩

/-- Engine-side strategy registration (spec section 4.1: multiple calls
queue multiple strategies, all registered strategies see every market
event). -/
def BacktestingEngine.add_strategy {σ : Type} (eng : BacktestingEngine σ)
    (s : RegisteredStrategy σ) : BacktestingEngine σ :=
  { eng with strategies := eng.strategies ++ [s] }

/-- `add_market_data` on the engine: validate and append to the pending
feed. -/
def BacktestingEngine.add_market_data {σ : Type} (eng : BacktestingEngine σ)
    (symbol : String) (price : ℚ) (timestamp : Int) (volume : Int) :
    Except DataError (BacktestingEngine σ) :=
  (addMarketData eng.feed symbol price timestamp volume).map
    fun feed' => { eng with feed := feed' }

/-- Modelled from the spec: dispatch of one external tick and of the whole
event cascade it causes, in FIFO order (spec section 4.1): the `Market` event
goes to every registered strategy in registration order and to the price
update paths; the emitted `Signal` events are converted by the portfolio into
`Order` events; the orders are executed into `Fill` events; the fills are
applied to the portfolio.  Returns the new engine state and the dispatched
event sequence of the tick. -/
def BacktestingEngine.processTick {σ : Type} (eng : BacktestingEngine σ)
    (e : MarketEvent) : BacktestingEngine σ × List Event :=
  let stepped := eng.strategies.map fun s =>
    let r := s.2 s.1 e
    ((r.1, s.2), r.2)
  let strategies' := stepped.map fun p => p.1
  let signals := (stepped.map fun p => p.2).flatten
  let pf1 := eng.portfolio.update_price e.symbol e.price
  let handler' := eng.handler.update_price e.symbol e.price
  let orders := signals.filterMap pf1.update_signal
  let fills := orders.filterMap handler'.execute_order
  let pf2 := fills.foldl Portfolio.update_fill pf1
  ({ eng with
      strategies := strategies'
      portfolio := pf2
      handler := handler' },
   Event.market e :: (signals.map Event.signal ++ orders.map Event.order
     ++ fills.map Event.fill))

/-- The dispatch loop over the external feed: one tick's cascade is fully
drained before the next tick is dispatched (spec section 4.1). -/
def BacktestingEngine.runLoop {σ : Type} :
    BacktestingEngine σ → List MarketEvent → BacktestingEngine σ × List Event
  | eng, [] => (eng, [])
  | eng, e :: rest =>
      let step := eng.processTick e
      let tail := BacktestingEngine.runLoop step.1 rest
      (tail.1, step.2 ++ tail.2)

/-- Modelled from the spec: `run()` (spec sections 4.1, 6 and 7) - fails with
a ConfigurationError when no strategy is registered, before any dispatch;
otherwise executes the dispatch loop to completion over the pending feed and
reports the full event trace together with the final total value. -/
def BacktestingEngine.run {σ : Type} (eng : BacktestingEngine σ) :
    Except ConfigError (List Event × ℚ) :=
  if eng.strategies.isEmpty then Except.error ConfigError.noStrategyRegistered
  else
    let r := BacktestingEngine.runLoop
      { eng with feed := [] } eng.feed
    Except.ok (r.2, r.1.portfolio.get_total_value)

/-- The Signal/Order/Fill subsequence of a trace (the events claim C3's
determinism statement ranges over, besides the final total value). -/
def derivedEvents (trace : List Event) : List Event :=
  trace.filter fun ev =>
    match ev with
    | Event.market _ => false
    | _ => true

/-! ### Warm-up of the moving-average strategy -/

/-- Length of the rolling history the strategy holds for a symbol. -/
def SMAStrategy.histLen (st : SMAStrategy) (s : String) : Nat :=
  ((alookup st.histories s).getD []).length

theorem calculateSignals_symbol {st : SMAStrategy} {e : MarketEvent}
    {sig : SignalEvent} (h : (st.calculateSignals e).2 = some sig) :
    sig.symbol = e.symbol := by
  simp only [SMAStrategy.calculateSignals] at h
  split_ifs at h with h1 h2 h3
  all_goals
    cases Option.some.inj h
    rfl

theorem calculateSignals_emit_le {st : SMAStrategy} {e : MarketEvent}
    {sig : SignalEvent} (h : (st.calculateSignals e).2 = some sig) :
    st.window_size.toNat ≤ st.histLen e.symbol + 1 := by
  unfold SMAStrategy.histLen
  simp only [SMAStrategy.calculateSignals] at h
  split_ifs at h with h1 h2 h3
  all_goals
    rw [List.length_take] at h1
    simp only [List.length_cons] at h1
    omega

theorem calculateSignals_histLen_self (st : SMAStrategy) (e : MarketEvent) :
    (st.calculateSignals e).1.histLen e.symbol ≤ st.histLen e.symbol + 1 := by
  simp only [SMAStrategy.calculateSignals, SMAStrategy.histLen,
    alookup_aupsert_self, Option.getD_some, List.length_take,
    List.length_cons]
  omega

theorem calculateSignals_histLen_other (st : SMAStrategy) (e : MarketEvent)
    (s : String) (hs : e.symbol ≠ s) :
    (st.calculateSignals e).1.histLen s = st.histLen s := by
  simp only [SMAStrategy.calculateSignals, SMAStrategy.histLen,
    alookup_aupsert_ne _ _ _ _ (fun h => hs h.symm)]

theorem calculateSignals_window (st : SMAStrategy) (e : MarketEvent) :
    (st.calculateSignals e).1.window_size = st.window_size := rfl

/-- If `runFeed` ever emits a signal for symbol `s`, the window size is
bounded by the history length at the start plus the number of `s`-ticks in
the feed: histories grow by at most one entry per matching tick and a signal
is only emitted from a full window. -/
theorem runFeed_emit_bound :
    ∀ (feed : List MarketEvent) (st : SMAStrategy) (s : String)
      (sig : SignalEvent), sig ∈ (st.runFeed feed).2 → sig.symbol = s →
      st.window_size.toNat
        ≤ st.histLen s + feed.countP fun e => decide (e.symbol = s)
  | [], st, s, sig, hmem, _ => by
      simp [SMAStrategy.runFeed] at hmem
  | e :: rest, st, s, sig, hmem, hsym => by
      rw [SMAStrategy.runFeed] at hmem
      simp only [List.mem_append, Option.mem_toList, Option.mem_def] at hmem
      rw [List.countP_cons]
      rcases hmem with hemit | htail
      · have hes : e.symbol = s :=
          (calculateSignals_symbol hemit).symm.trans hsym
        have hle := calculateSignals_emit_le hemit
        rw [hes] at hle
        simp [hes]
        omega
      · have ih := runFeed_emit_bound rest (st.calculateSignals e).1 s sig
          htail hsym
        rw [calculateSignals_window] at ih
        by_cases hes : e.symbol = s
        · have hlen := calculateSignals_histLen_self st e
          rw [hes] at hlen
          simp [hes]
          omega
        · have hlen := calculateSignals_histLen_other st e s hes
          simp [hes]
          omega

/-! ### Delete-call count of the `add_strategy` ownership dance -/

theorem release_iterate (n d : Nat) (hn : 1 ≤ n) :
    SharedGroup.release^[n] ⟨n, d⟩ = ⟨0, d + 1⟩ := by
  induction n generalizing d with
  | zero => omega
  | succ m ih =>
      rw [Function.iterate_succ_apply]
      cases Nat.eq_zero_or_pos m with
      | inl hm =>
          subst hm
          simp [SharedGroup.release]
      | inr hm =>
          have hrel : SharedGroup.release ⟨m + 1, d⟩ = ⟨m, d⟩ := by
            simp only [SharedGroup.release]
            rw [if_neg (by omega)]
            simp
          rw [hrel]
          exact ih d hm

/-- Whatever the number of other live shared references at registration time,
the strategy object passed to `add_strategy` receives exactly two `delete`
calls over the program: one from the `shared_ptr` group (immediately at
`reset()` when the lambda held the last reference, otherwise when the last
external reference dies) and one from the engine's `unique_ptr`. -/
theorem strategyDeleteCalls_eq_two (n : Nat) : strategyDeleteCalls n = 2 := by
  cases n with
  | zero => rfl
  | succ m =>
      show (SharedGroup.release^[m + 1]
        (SharedGroup.release ⟨m + 2, 0⟩)).deletes + 1 = 2
      have h1 : SharedGroup.release ⟨m + 2, 0⟩ = ⟨m + 1, 0⟩ := by
        simp only [SharedGroup.release]
        rw [if_neg (by omega)]
        simp
      rw [h1, release_iterate (m + 1) 0 (by omega)]

/-! # Claim theorems -/

/-- C1: For every reachable portfolio state, immediately after any
`update_fill` or `update_price` call completes, `get_total_value()` equals
cash plus the sum over all held symbols of position quantity times the
latest known price of that symbol.  (`get_total_value` is a pure read by
construction in this model: it is a function of the portfolio state that
returns a number and produces no new state.) -/
theorem C1_portfolio_equity_invariant (pf : Portfolio) (h : pf.Reachable)
    (s : String) (price : ℚ) (f : FillEvent) :
    (pf.update_price s price).get_total_value
        = (pf.update_price s price).cash
          + (pf.update_price s price).markToMarketSum
    ∧ (pf.update_fill f).get_total_value
        = (pf.update_fill f).cash + (pf.update_fill f).markToMarketSum :=
  ⟨total_value_eq_mark_to_market
      (consistent_of_reachable (Portfolio.Reachable.price s price h)),
    total_value_eq_mark_to_market
      (consistent_of_reachable (Portfolio.Reachable.fill f h))⟩

/-- Witness for C1 at the initial portfolio with an AAPL tick and fill. -/
theorem C1_portfolio_equity_invariant_witness :
    (Portfolio.init 100000).Reachable ∧
    (((Portfolio.init 100000).update_price "AAPL" 105).get_total_value
        = ((Portfolio.init 100000).update_price "AAPL" 105).cash
          + ((Portfolio.init 100000).update_price "AAPL" 105).markToMarketSum
      ∧ ((Portfolio.init 100000).update_fill
            ⟨"AAPL", 10, OrderDirection.BUY, 105, 0, 0⟩).get_total_value
          = ((Portfolio.init 100000).update_fill
              ⟨"AAPL", 10, OrderDirection.BUY, 105, 0, 0⟩).cash
            + ((Portfolio.init 100000).update_fill
                ⟨"AAPL", 10, OrderDirection.BUY, 105, 0, 0⟩).markToMarketSum) :=
  ⟨Portfolio.Reachable.init 100000,
    C1_portfolio_equity_invariant _ (Portfolio.Reachable.init 100000)
      "AAPL" 105 ⟨"AAPL", 10, OrderDirection.BUY, 105, 0, 0⟩⟩

/-- C2: the claim says the strategy object registered through `add_strategy`
is destroyed exactly once; on the code of wrapper lines 164-169 the object
instead receives two `delete` calls - `std::unique_ptr` built from
`strategy.get()` does not detach the pointer from the `shared_ptr` control
block, so both the shared group and the engine's `unique_ptr` delete it -
contradicting the code's own comment "Release from shared_ptr to avoid
double deletion".  This theorem evaluates the model at the failing input
`externalRefs = 1` (the pybind11 holder of the Python-side object is still
alive at registration): the object is deleted twice, not once. -/
theorem C2_strategy_deleted_twice : strategyDeleteCalls 1 = 2 := by decide

/-- C3: two runs of the engine with an identical feed and identical strategy
configuration (and the same initial portfolio and execution handler) produce
identical Signal/Order/Fill event sequences and the same final total value:
the modelled run loop is a pure function of those inputs. -/
theorem C3_run_deterministic {σ : Type} (eng₁ eng₂ : BacktestingEngine σ)
    (hstrat : eng₁.strategies = eng₂.strategies)
    (hfeed : eng₁.feed = eng₂.feed)
    (hpf : eng₁.portfolio = eng₂.portfolio)
    (hhandler : eng₁.handler = eng₂.handler) :
    (eng₁.run.map fun r => (derivedEvents r.1, r.2))
      = eng₂.run.map fun r => (derivedEvents r.1, r.2) := by
  cases eng₁
  cases eng₂
  simp only at hstrat hfeed hpf hhandler
  subst hstrat
  subst hfeed
  subst hpf
  subst hhandler
  rfl

/-- A registered-strategy entry driving the built-in moving-average
strategy. -/
def smaRegistered (w : Int) : RegisteredStrategy SMAStrategy :=
  (⟨w, []⟩, fun st e =>
    let r := st.calculateSignals e
    (r.1, r.2.toList))

/-- An engine given by a literal state: one SMA strategy, one AAPL tick. -/
def engWitnessA : BacktestingEngine SMAStrategy :=
  ⟨[smaRegistered 2], [⟨"AAPL", 100, 1, 0⟩], Portfolio.init 100000, ⟨[]⟩⟩

/-- The same configuration assembled through `make` and `add_strategy`. -/
def engWitnessB : BacktestingEngine SMAStrategy :=
  { (BacktestingEngine.make SMAStrategy).add_strategy (smaRegistered 2) with
    feed := [⟨"AAPL", 100, 1, 0⟩] }

/-- Witness for C3: the two engine values above. -/
theorem C3_run_deterministic_witness :
    (engWitnessA.strategies = engWitnessB.strategies
      ∧ engWitnessA.feed = engWitnessB.feed
      ∧ engWitnessA.portfolio = engWitnessB.portfolio
      ∧ engWitnessA.handler = engWitnessB.handler)
    ∧ (engWitnessA.run.map fun r => (derivedEvents r.1, r.2))
        = engWitnessB.run.map fun r => (derivedEvents r.1, r.2) :=
  ⟨⟨rfl, rfl, rfl, rfl⟩,
    C3_run_deterministic engWitnessA engWitnessB rfl rfl rfl rfl⟩

/-- C4: a call to `add_market_data` whose price is negative, whose volume is
negative, or whose timestamp is smaller than the timestamp of a previously
added event for the same symbol is rejected with a `DataError` at ingestion
time (an error result carries no feed, so no event is appended); likewise
validated `MarketEvent` construction rejects a negative price or volume -
the bad value is never clamped or accepted on either route.  (The timestamp
condition refers to previously added events, so it applies to the feed route
only.) -/
theorem C4_ingestion_rejects {σ : Type} (eng : BacktestingEngine σ)
    (symbol : String) (price : ℚ) (timestamp : Int) (volume : Int)
    (hbad : price < 0 ∨ volume < 0 ∨
      ∃ e ∈ eng.feed, e.symbol = symbol ∧ timestamp < e.timestamp) :
    (∃ err : DataError,
      eng.add_market_data symbol price timestamp volume
        = Except.error err)
    ∧ (price < 0 ∨ volume < 0 →
      ∃ err : DataError,
        MarketEvent.construct symbol price timestamp volume
          = Except.error err) := by
  constructor
  · unfold BacktestingEngine.add_market_data addMarketData
      MarketEvent.construct
    by_cases hp : price < 0
    · exact ⟨DataError.negativePrice, by simp [hp, Except.map]⟩
    · by_cases hv : volume < 0
      · exact ⟨DataError.negativeVolume, by simp [hp, hv, Except.map]⟩
      · have hany : (eng.feed.any fun e =>
            e.symbol == symbol && decide (timestamp < e.timestamp))
              = true := by
          rcases hbad with h | h | ⟨e, he, hs, ht⟩
          · exact absurd h hp
          · exact absurd h hv
          · rw [List.any_eq_true]
            exact ⟨e, he, by simp [hs, ht]⟩
        exact ⟨DataError.nonMonotonicTimestamp,
          by simp [hp, hv, hany, Except.map]⟩
  · intro hsign
    unfold MarketEvent.construct
    by_cases hp : price < 0
    · exact ⟨DataError.negativePrice, by simp [hp]⟩
    · have hv : volume < 0 := by
        rcases hsign with h | h
        · exact absurd h hp
        · exact h
      exact ⟨DataError.negativeVolume, by simp [hp, hv]⟩

/-- Witness for C4: a negative price is rejected on a fresh engine and by
validated event construction. -/
theorem C4_ingestion_rejects_witness :
    ((-1 : ℚ) < 0 ∨ (0 : Int) < 0 ∨
      ∃ e ∈ (BacktestingEngine.make SMAStrategy).feed,
        e.symbol = "AAPL" ∧ (5 : Int) < e.timestamp)
    ∧ ((∃ err : DataError,
          (BacktestingEngine.make SMAStrategy).add_market_data
            "AAPL" (-1) 5 0 = Except.error err)
      ∧ ((-1 : ℚ) < 0 ∨ (0 : Int) < 0 →
        ∃ err : DataError,
          MarketEvent.construct "AAPL" (-1) 5 0 = Except.error err)) :=
  ⟨Or.inl (by norm_num),
    C4_ingestion_rejects (BacktestingEngine.make SMAStrategy)
      "AAPL" (-1) 5 0 (Or.inl (by norm_num))⟩

/-- C5: invoking `run()` with no registered strategy fails with a
ConfigurationError before any dispatch, and constructing an `SMAStrategy`
with `window_size ≤ 0` is a ConfigurationError surfaced at construction
time, before `run()` proceeds. -/
theorem C5_configuration_errors {σ : Type} (eng : BacktestingEngine σ)
    (hempty : eng.strategies = []) (w : Int) (hw : w ≤ 0) :
    eng.run = Except.error ConfigError.noStrategyRegistered
    ∧ SMAStrategy.make w = Except.error ConfigError.invalidWindowSize := by
  constructor
  · unfold BacktestingEngine.run
    simp [hempty]
  · unfold SMAStrategy.make
    simp [hw]

/-- Witness for C5: a fresh engine has no strategy; window size `0`. -/
theorem C5_configuration_errors_witness :
    ((BacktestingEngine.make SMAStrategy).strategies = [] ∧ (0 : Int) ≤ 0)
    ∧ ((BacktestingEngine.make SMAStrategy).run
          = Except.error ConfigError.noStrategyRegistered
      ∧ SMAStrategy.make 0
          = Except.error ConfigError.invalidWindowSize) :=
  ⟨⟨rfl, by decide⟩,
    C5_configuration_errors (BacktestingEngine.make SMAStrategy) rfl 0
      (by decide)⟩

/-- C6: for every symbol and every feed, an `SMAStrategy` with window size
`w` emits no signal for that symbol while fewer than `w` market events for
the symbol have been observed. -/
theorem C6_sma_warm_up (w : Int) (st : SMAStrategy)
    (hmk : SMAStrategy.make w = Except.ok st) (feed : List MarketEvent)
    (s : String)
    (hcount : ((feed.countP fun e => decide (e.symbol = s)) : Int) < w) :
    ∀ sig ∈ (st.runFeed feed).2, sig.symbol ≠ s := by
  intro sig hmem hsym
  unfold SMAStrategy.make at hmk
  by_cases hw : w ≤ 0
  · rw [if_pos hw] at hmk
    exact Except.noConfusion hmk
  · rw [if_neg hw] at hmk
    injection hmk with hst
    subst hst
    have hb := runFeed_emit_bound feed _ s sig hmem hsym
    simp only [SMAStrategy.histLen, alookup, Option.getD_none,
      List.length_nil] at hb
    omega

/-- Witness for C6: window 3, two AAPL ticks, no signal emitted. -/
theorem C6_sma_warm_up_witness :
    (SMAStrategy.make 3 = Except.ok (⟨3, []⟩ : SMAStrategy)
      ∧ ((([⟨"AAPL", 100, 1, 0⟩, ⟨"AAPL", 105, 2, 0⟩] :
            List MarketEvent).countP
          fun e => decide (e.symbol = "AAPL")) : Int) < 3)
    ∧ ∀ sig ∈ ((⟨3, []⟩ : SMAStrategy).runFeed
        [⟨"AAPL", 100, 1, 0⟩, ⟨"AAPL", 105, 2, 0⟩]).2,
        sig.symbol ≠ "AAPL" :=
  ⟨⟨rfl, by decide⟩,
    C6_sma_warm_up 3 ⟨3, []⟩ rfl
      [⟨"AAPL", 100, 1, 0⟩, ⟨"AAPL", 105, 2, 0⟩] "AAPL" (by decide)⟩

/-- C7: both `calculateSignals` and `getName` are pure-virtual in the
`Strategy` interface: when a user-supplied instance provides the overrides,
invocation through the interface dispatches to exactly those
implementations, and an instance lacking an override cannot be invoked
through the interface (the call surfaces a pure-virtual-call error instead
of running any base implementation). -/
theorem C7_pure_virtual_dispatch (inst : PyStrategyInstance)
    (f : MarketEvent → List SignalEvent) (g : Unit → String)
    (hf : inst.override_calculateSignals = some f)
    (hg : inst.override_getName = some g) :
    (∀ e, PyStrategy.calculateSignals inst e = Except.ok (f e))
    ∧ PyStrategy.getName inst = Except.ok (g ())
    ∧ (∀ inst' : PyStrategyInstance,
        inst'.override_calculateSignals = none →
        ∀ e, PyStrategy.calculateSignals inst' e
          = Except.error (DispatchError.pureVirtualCall "calculateSignals"))
    ∧ (∀ inst' : PyStrategyInstance, inst'.override_getName = none →
        PyStrategy.getName inst'
          = Except.error (DispatchError.pureVirtualCall "getName")) := by
  refine ⟨?_, ?_, ?_, ?_⟩
  · intro e
    simp [PyStrategy.calculateSignals, hf]
  · simp [PyStrategy.getName, hg]
  · intro inst' hnone e
    simp [PyStrategy.calculateSignals, hnone]
  · intro inst' hnone
    simp [PyStrategy.getName, hnone]

/-- Witness for C7: an instance supplying both overrides. -/
theorem C7_pure_virtual_dispatch_witness :
    ((PyStrategyInstance.mk (some fun _ => []) (some fun _ => "mine")
        ).override_calculateSignals = some (fun _ => [])
      ∧ (PyStrategyInstance.mk (some fun _ => []) (some fun _ => "mine")
        ).override_getName = some (fun _ => "mine"))
    ∧ PyStrategy.getName
        (PyStrategyInstance.mk (some fun _ => []) (some fun _ => "mine"))
        = Except.ok "mine" :=
  ⟨⟨rfl, rfl⟩,
    (C7_pure_virtual_dispatch
      (PyStrategyInstance.mk (some fun _ => []) (some fun _ => "mine"))
      (fun _ => []) (fun _ => "mine") rfl rfl).2.1⟩

/-- C8: constructing a `MarketEvent` without supplying `volume` yields
`get_volume = 0`, and constructing a `SignalEvent` without supplying
`strength` or `strategy_id` yields `get_strength = 1.0` and an empty
`get_strategy_id` (binding defaults at wrapper lines 83 and 93). -/
theorem C8_constructor_defaults (symbol : String) (price : ℚ)
    (timestamp : Int) (direction : OrderDirection) :
    (MarketEvent.mkDefault symbol price timestamp).get_volume = 0
    ∧ (SignalEvent.mkDefault symbol direction).get_strength = 1
    ∧ (SignalEvent.mkDefault symbol direction).get_strategy_id = "" :=
  ⟨rfl, rfl, rfl⟩

/-- C9: the module-level factories produce events observationally equal to
direct construction with the same arguments: every bound accessor agrees. -/
theorem C9_factories_observationally_equal (symbol : String) (price : ℚ)
    (timestamp : Int) (volume : Int) (direction : OrderDirection)
    (strength : ℚ) (strategy_id : String) :
    ((create_market_event symbol price timestamp volume).get_type
        = (MarketEvent.mk symbol price timestamp volume).get_type
      ∧ (create_market_event symbol price timestamp volume).get_symbol
        = (MarketEvent.mk symbol price timestamp volume).get_symbol
      ∧ (create_market_event symbol price timestamp volume).get_price
        = (MarketEvent.mk symbol price timestamp volume).get_price
      ∧ (create_market_event symbol price timestamp volume).get_timestamp
        = (MarketEvent.mk symbol price timestamp volume).get_timestamp
      ∧ (create_market_event symbol price timestamp volume).get_volume
        = (MarketEvent.mk symbol price timestamp volume).get_volume)
    ∧ ((create_signal_event symbol direction strength strategy_id).get_type
        = (SignalEvent.mk symbol direction strength strategy_id).get_type
      ∧ (create_signal_event symbol direction strength
          strategy_id).get_symbol
        = (SignalEvent.mk symbol direction strength strategy_id).get_symbol
      ∧ (create_signal_event symbol direction strength
          strategy_id).get_direction
        = (SignalEvent.mk symbol direction strength
            strategy_id).get_direction
      ∧ (create_signal_event symbol direction strength
          strategy_id).get_strength
        = (SignalEvent.mk symbol direction strength
            strategy_id).get_strength
      ∧ (create_signal_event symbol direction strength
          strategy_id).get_strategy_id
        = (SignalEvent.mk symbol direction strength
            strategy_id).get_strategy_id) :=
  ⟨⟨rfl, rfl, rfl, rfl, rfl⟩, ⟨rfl, rfl, rfl, rfl, rfl⟩⟩

/-- C10: constructing a `FillEvent` without supplying a timestamp yields
`get_timestamp = 0` (binding default at wrapper line 116, a default the
spec's FillEvent description does not state). -/
theorem C10_fill_default_timestamp (symbol : String) (quantity : Int)
    (direction : OrderDirection) (fill_price : ℚ) :
    (FillEvent.mkDefault symbol quantity direction fill_price).get_timestamp
      = 0 :=
  rfl

end Backtesting
